import Mathlib

set_option maxRecDepth 40000

/-!
Verification of the CFR (tagged, variable-length binary configuration
record) traversal engine of UefiPayloadPkg: the variable-length field
extractor `CfrExtractVarBinary`, the default resolver
`CfrOptionGetDefaultValue` (CfrHelpersLib), and the tree walker
`CfrCreateRuntimeComponents` with its per-kind handlers
(CfrSetupMenuDxe/SetupMenuCfr.c), plus the backing-storage step
`CfrProduceStorageForOption`.

The C buffers are modelled byte-exactly as `List Nat` with little-endian
fixed-width reads at explicit offsets (`#pragma pack(1)` layout, per
Include/Guid/CfrSetupMenuGuid.h):
  CFR_VARBINARY      : tag u32 @0, size u32 @4, data_length u32 @8, data @12
  CFR_OPTION_FORM    : tag @0, size @4, object_id u64 @8, dependency_id u64 @16,
                       flags u32 @24               (sizeof = 28)
  CFR_OPTION_NUMERIC : as FORM plus default_value u32 @28   (sizeof = 32)
  CFR_OPTION_VARCHAR / CFR_OPTION_COMMENT : as FORM          (sizeof = 28)
  CFR_ENUM_VALUE     : tag @0, size @4, value u32 @8         (sizeof = 12)

C reads past a list's end are modelled as reading 0 (`List.getD`); NULL
pointer dereference after a failed mandatory extraction is modelled as an
explicit `crashed` outcome (release builds compile `ASSERT` away, so the
subsequent dereference of the NULL result is the first observable effect).
The C `while` loops can fail to make progress when a record declares
`size = 0`; they are given fuel, and exhausting it (`fuelOut`) models the
divergence of the C loop.  External HII and variable services are
abstracted into an event list (the walker's visitor calls) and an
association-list variable store.
-/

/-- A raw byte buffer; each element is one byte. -/
abbrev Bytes := List Nat

/-- Read one byte; reads beyond the end of the list yield 0. -/
def readU8 (buf : Bytes) (off : Nat) : Nat :=
  (buf.getD off 0) % 256

/-- Little-endian 32-bit read at a byte offset. -/
def readU32 (buf : Bytes) (off : Nat) : Nat :=
  readU8 buf off + 2 ^ 8 * readU8 buf (off + 1) +
    2 ^ 16 * readU8 buf (off + 2) + 2 ^ 24 * readU8 buf (off + 3)

/-- Read `len` consecutive bytes starting at `off`. -/
def readBytes (buf : Bytes) (off len : Nat) : List Nat :=
  (List.range len).map (fun i => readU8 buf (off + i))

/-- Bytes of a NUL-terminated C string starting at `off` (terminator not
included); the recursion is bounded by the buffer length because every
read past the end yields 0. -/
def readCStrAux (buf : Bytes) : Nat → Nat → List Nat
  | 0, _ => []
  | fuel + 1, off =>
    let b := readU8 buf off
    if b = 0 then [] else b :: readCStrAux buf fuel (off + 1)

/-- NUL-terminated C string at `off`, as used by `AsciiStrCmp` on the
`data` member of a `CFR_VARBINARY`. -/
def readCStr (buf : Bytes) (off : Nat) : List Nat :=
  readCStrAux buf (buf.length + 1) off

/-- Little-endian encoding of a 32-bit value (used to build test buffers). -/
def u32le (n : Nat) : List Nat :=
  [n % 256, n / 2 ^ 8 % 256, n / 2 ^ 16 % 256, n / 2 ^ 24 % 256]

/-- Little-endian encoding of a 64-bit value. -/
def u64le (n : Nat) : List Nat :=
  u32le (n % 2 ^ 32) ++ u32le (n / 2 ^ 32 % 2 ^ 32)

/-! ## CFR tag values (Include/Guid/CfrSetupMenuGuid.h) -/

def CB_TAG_CFR_OPTION_FORM : Nat := 0x0001
def CB_TAG_CFR_ENUM_VALUE : Nat := 0x0002
def CB_TAG_CFR_OPTION_ENUM : Nat := 0x0003
def CB_TAG_CFR_OPTION_NUMBER : Nat := 0x0004
def CB_TAG_CFR_OPTION_BOOL : Nat := 0x0005
def CB_TAG_CFR_OPTION_VARCHAR : Nat := 0x0006
def CB_TAG_CFR_VARCHAR_OPT_NAME : Nat := 0x0007
def CB_TAG_CFR_VARCHAR_UI_NAME : Nat := 0x0008
def CB_TAG_CFR_VARCHAR_UI_HELPTEXT : Nat := 0x0009
def CB_TAG_CFR_VARCHAR_DEF_VALUE : Nat := 0x000a
def CB_TAG_CFR_OPTION_COMMENT : Nat := 0x000b

/-! ## Variable-length field extractor -/

/-- The view a successful `CfrExtractVarBinary` returns: the absolute
offset of the `CFR_VARBINARY` record inside the tree buffer and its three
header fields (the `data` member lives at `off + 12`). -/
structure VarBinary where
  off : Nat
  tag : Nat
  size : Nat
  data_length : Nat
deriving DecidableEq, Repr

/-- Shallow embedding of `CfrExtractVarBinary` (CfrHelpersLib).  The C
function receives `Buffer` (modelled by `buf` plus the base offset of
that pointer inside the tree buffer) and a cursor `*Offset` relative to
`Buffer`.  It dereferences the record header at the cursor with no bounds
check; on a tag mismatch it returns NULL (`none`) and leaves the cursor
unchanged, on a match it advances the cursor by the record's declared
`size` and returns the record. -/
def CfrExtractVarBinary (buf : Bytes) (base cursor targetTag : Nat) :
    Option VarBinary × Nat :=
  let tag := readU32 buf (base + cursor)
  if tag = targetTag then
    (some ⟨base + cursor, tag, readU32 buf (base + cursor + 4),
       readU32 buf (base + cursor + 8)⟩,
     cursor + readU32 buf (base + cursor + 4))
  else
    (none, cursor)

/-- Trace contribution of an optional extraction result: the consumed
record's (absolute offset, tag), or nothing. -/
def vtr : Option VarBinary → List (Nat × Nat)
  | none => []
  | some v => [(v.off, v.tag)]

/-- C4: on a tag mismatch the extractor returns nothing and leaves the
cursor unchanged; on a match it returns the record view and advances the
cursor by exactly the record's declared `size` field; the cursor never
decreases. -/
theorem cfrExtractVarBinary_cursor_spec (buf : Bytes) (base cursor t : Nat) :
    (readU32 buf (base + cursor) ≠ t →
      CfrExtractVarBinary buf base cursor t = (none, cursor)) ∧
    (readU32 buf (base + cursor) = t →
      CfrExtractVarBinary buf base cursor t =
        (some ⟨base + cursor, t, readU32 buf (base + cursor + 4),
           readU32 buf (base + cursor + 8)⟩,
         cursor + readU32 buf (base + cursor + 4))) ∧
    cursor ≤ (CfrExtractVarBinary buf base cursor t).2 := by
  refine ⟨fun h => ?_, fun h => ?_, ?_⟩
  · simp [CfrExtractVarBinary, h]
  · simp [CfrExtractVarBinary, h]
  · by_cases h : readU32 buf (base + cursor) = t
    · simp [CfrExtractVarBinary, h]
    · simp [CfrExtractVarBinary, h]

/-- Witness for C4 at a concrete buffer: a matching extraction advances
the cursor by the declared size, and a mismatched tag leaves it alone. -/
theorem cfrExtractVarBinary_cursor_spec_witness :
    readU32 (u32le 8 ++ u32le 13 ++ u32le 1 ++ [0]) 0 = 8 ∧
    CfrExtractVarBinary (u32le 8 ++ u32le 13 ++ u32le 1 ++ [0]) 0 0 8 =
      (some ⟨0, 8, 13, 1⟩, 13) := by
  refine ⟨by decide, ?_⟩
  have h := (cfrExtractVarBinary_cursor_spec
    (u32le 8 ++ u32le 13 ++ u32le 1 ++ [0]) 0 0 8).2.1 (by decide)
  simpa using h

/-! ## Default resolver (`CfrOptionGetDefaultValue`, CfrHelpersLib) -/

/-- Outcome of running the resolver's inner `while` loop over one form
tree.  `found` carries the bytes the returned pointer/length pair
designates; `formHit` is the early `return EFI_NOT_FOUND` taken when a
nested form's UI name equals the requested option name; `finished` means
the loop ran off the end of the tree without a match; `crashed` models a
NULL dereference after a failed mandatory extraction; `fuelOut` models a
non-terminating loop (a record declaring `size = 0`). -/
inductive LoopEnd
  | found (bytes : List Nat)
  | formHit
  | finished
  | crashed
  | fuelOut
deriving DecidableEq, Repr

/-- Result of the resolver's record loop on one tree: the sequence of
(absolute offset, tag) record positions consumed, and how it stopped. -/
structure LoopOut where
  trace : List (Nat × Nat)
  stop : LoopEnd
deriving DecidableEq, Repr

/-- Prepend consumed records to a loop result. -/
def LoopOut.pre (tr : List (Nat × Nat)) (o : LoopOut) : LoopOut :=
  ⟨tr ++ o.trace, o.stop⟩

/-- Outcome of the whole per-HOB processing step: either a loop outcome,
or `skipped` when the tree's root UI name failed the form-name filter
(`continue` to the next HOB without entering the record loop). -/
inductive TreeEnd
  | found (bytes : List Nat)
  | formHit
  | finished
  | skipped
  | crashed
  | fuelOut
deriving DecidableEq, Repr

/-- Embed a loop outcome into the per-tree outcome (the record loop can
never produce `skipped`). -/
def LoopEnd.toTreeEnd : LoopEnd → TreeEnd
  | .found bs => .found bs
  | .formHit => .formHit
  | .finished => .finished
  | .crashed => .crashed
  | .fuelOut => .fuelOut

/-- Result of processing one tree: consumed records plus outcome. -/
structure TreeOut where
  trace : List (Nat × Nat)
  stop : TreeEnd
deriving DecidableEq, Repr

/-- View a loop result as a per-tree result. -/
def LoopOut.toTreeOut (o : LoopOut) : TreeOut :=
  ⟨o.trace, o.stop.toTreeEnd⟩

/-- Prepend consumed records to a tree-processing result. -/
def TreeOut.pre (tr : List (Nat × Nat)) (o : TreeOut) : TreeOut :=
  ⟨tr ++ o.trace, o.stop⟩

/-- The resolver's `while (ProcessedLength < CfrFormHob->size)` loop.
`optName` is the requested option name (the C caller's NUL-terminated
`OptionName`, without the terminator).  Mirrors the `switch` in
`CfrOptionGetDefaultValue`: nested forms are flattened (advance by
`sizeof (CFR_OPTION_FORM)` plus the UI-name field, not by `size`),
numeric options compare only the extracted internal name, VARCHAR options
extract internal name, UI name, optional help text and default value in
that order before comparing, and everything else is skipped by `size`. -/
def resolveLoop (buf : Bytes) (optName : List Nat) : Nat → Nat → LoopOut
  | 0, pl =>
    if pl < readU32 buf 4 then ⟨[], .fuelOut⟩ else ⟨[], .finished⟩
  | fuel + 1, pl =>
    if pl < readU32 buf 4 then
      let tag := readU32 buf pl
      let s := readU32 buf (pl + 4)
      if tag = CB_TAG_CFR_OPTION_FORM then
        match CfrExtractVarBinary buf 0 (pl + 28) CB_TAG_CFR_VARCHAR_UI_NAME with
        | (none, _) => ⟨[(pl, tag)], .crashed⟩
        | (some vb, pl2) =>
          if optName = readCStr buf (vb.off + 12) then
            ⟨[(pl, tag), (vb.off, vb.tag)], .formHit⟩
          else
            LoopOut.pre [(pl, tag), (vb.off, vb.tag)] (resolveLoop buf optName fuel pl2)
      else if tag = CB_TAG_CFR_OPTION_ENUM ∨ tag = CB_TAG_CFR_OPTION_NUMBER ∨
          tag = CB_TAG_CFR_OPTION_BOOL then
        match CfrExtractVarBinary buf pl 32 CB_TAG_CFR_VARCHAR_OPT_NAME with
        | (none, _) => ⟨[(pl, tag)], .crashed⟩
        | (some n, _) =>
          if optName = readCStr buf (n.off + 12) then
            ⟨[(pl, tag), (n.off, n.tag)], .found (readBytes buf (pl + 28) 4)⟩
          else
            LoopOut.pre [(pl, tag), (n.off, n.tag)] (resolveLoop buf optName fuel (pl + s))
      else if tag = CB_TAG_CFR_OPTION_VARCHAR then
        let e1 := CfrExtractVarBinary buf pl 28 CB_TAG_CFR_VARCHAR_OPT_NAME
        let e2 := CfrExtractVarBinary buf pl e1.2 CB_TAG_CFR_VARCHAR_UI_NAME
        let e3 := CfrExtractVarBinary buf pl e2.2 CB_TAG_CFR_VARCHAR_UI_HELPTEXT
        let e4 := CfrExtractVarBinary buf pl e3.2 CB_TAG_CFR_VARCHAR_DEF_VALUE
        let tr := (pl, tag) :: (vtr e1.1 ++ vtr e2.1 ++ vtr e3.1 ++ vtr e4.1)
        match e1.1 with
        | none => ⟨tr, .crashed⟩
        | some n =>
          if optName = readCStr buf (n.off + 12) then
            match e4.1 with
            | none => ⟨tr, .crashed⟩
            | some d => ⟨tr, .found (readBytes buf (d.off + 12) d.data_length)⟩
          else
            LoopOut.pre tr (resolveLoop buf optName fuel (pl + s))
      else
        LoopOut.pre [(pl, tag)] (resolveLoop buf optName fuel (pl + s))
    else ⟨[], .finished⟩

/-- Processing of one form HOB by `CfrOptionGetDefaultValue`: start the
cursor past the root's fixed fields (`sizeof (CFR_OPTION_FORM) = 28`),
extract the root UI name, apply the form-name filter (`AsciiStrCmp` only
runs when `FormName` is non-NULL, so a failed root extraction crashes only
in that case), then run the record loop. -/
def resolveTreeOut (buf : Bytes) (fn : Option (List Nat)) (optName : List Nat) :
    TreeOut :=
  let e := CfrExtractVarBinary buf 0 28 CB_TAG_CFR_VARCHAR_UI_NAME
  match e.1 with
  | none =>
    match fn with
    | some _ => ⟨[], .crashed⟩
    | none => (resolveLoop buf optName (readU32 buf 4 + 1) 28).toTreeOut
  | some vb =>
    match fn with
    | some f =>
      if f = readCStr buf (vb.off + 12) then
        TreeOut.pre [(vb.off, vb.tag)]
          (resolveLoop buf optName (readU32 buf 4 + 1) e.2).toTreeOut
      else ⟨[(vb.off, vb.tag)], .skipped⟩
    | none =>
      TreeOut.pre [(vb.off, vb.tag)]
        (resolveLoop buf optName (readU32 buf 4 + 1) e.2).toTreeOut

/-- EFI status values `CfrOptionGetDefaultValue` can return. -/
inductive EfiStatus
  | success
  | invalidParameter
  | notFound
deriving DecidableEq, Repr

/-- Observable result of a `CfrOptionGetDefaultValue` call: the returned
status and the bytes behind `*DefaultValueData` / `*DefaultValueLength`
(`none` when the outputs were never written), or a NULL-dereference crash
/ divergence of the C code. -/
inductive ResolveResult
  | ok (status : EfiStatus) (data : Option (List Nat))
  | crash
  | diverge
deriving DecidableEq, Repr

/-- The resolver's HOB iteration (`GetFirstGuidHob` / `GetNextGuidHob`),
with the traversal traces of the visited trees concatenated on the side:
the first tree yielding a match returns its default value; a nested-form
name hit returns `EFI_NOT_FOUND` at once; skipped and exhausted trees fall
through to the next HOB; running out of trees yields `EFI_NOT_FOUND`. -/
def resolveAllOut (fn : Option (List Nat)) (optName : List Nat) :
    List Bytes → List (Nat × Nat) × ResolveResult
  | [] => ([], .ok .notFound none)
  | t :: ts =>
    let o := resolveTreeOut t fn optName
    match o.stop with
    | .found bs => (o.trace, .ok .success (some bs))
    | .formHit => (o.trace, .ok .notFound none)
    | .crashed => (o.trace, .crash)
    | .fuelOut => (o.trace, .diverge)
    | .skipped =>
      let r := resolveAllOut fn optName ts
      (o.trace ++ r.1, r.2)
    | .finished =>
      let r := resolveAllOut fn optName ts
      (o.trace ++ r.1, r.2)

/-- Shallow embedding of `CfrOptionGetDefaultValue`.  `fn` models the
optional `FormName` argument, `optName` the `OptionName` argument (`none` for a
NULL pointer), and `dataPtrNull` whether the `DefaultValueData` output
pointer is NULL; both NULL conditions return `EFI_INVALID_PARAMETER`
before any HOB is examined. -/
def CfrOptionGetDefaultValue (trees : List Bytes) (fn : Option (List Nat))
    (optName : Option (List Nat)) (dataPtrNull : Bool) : ResolveResult :=
  match optName, dataPtrNull with
  | none, _ => .ok .invalidParameter none
  | some _, true => .ok .invalidParameter none
  | some o, false => (resolveAllOut fn o trees).2

/-! ## Concrete CFR buffers for witnesses and counterexamples -/

/-- Fixed part of a `CFR_OPTION_FORM` record (dependency_id 0). -/
def formHeader (size obj flags : Nat) : List Nat :=
  u32le CB_TAG_CFR_OPTION_FORM ++ u32le size ++ u64le obj ++ u64le 0 ++ u32le flags

/-- A `CFR_VARBINARY` record carrying `data` (size = 12 + data length). -/
def varbin (tag : Nat) (data : List Nat) : List Nat :=
  u32le tag ++ u32le (12 + data.length) ++ u32le data.length ++ data

/-- Fixed part of a `CFR_OPTION_NUMERIC` record (dependency_id 0). -/
def numericHeader (tag size obj flags dv : Nat) : List Nat :=
  u32le tag ++ u32le size ++ u64le obj ++ u64le 0 ++ u32le flags ++ u32le dv

/-- Fixed part of a `CFR_OPTION_VARCHAR` / `CFR_OPTION_COMMENT` record. -/
def varcharHeader (tag size obj flags : Nat) : List Nat :=
  u32le tag ++ u32le size ++ u64le obj ++ u64le 0 ++ u32le flags

/-- ASCII bytes of "Main" with NUL. -/
def nmMain : List Nat := [77, 97, 105, 110, 0]
/-- ASCII bytes of "Advanced" with NUL. -/
def nmAdvanced : List Nat := [65, 100, 118, 97, 110, 99, 101, 100, 0]
/-- ASCII bytes of "Foo" with NUL. -/
def nmFoo : List Nat := [70, 111, 111, 0]
/-- ASCII bytes of "F" with NUL. -/
def nmF : List Nat := [70, 0]
/-- ASCII bytes of "Bar" with NUL. -/
def nmBar : List Nat := [66, 97, 114, 0]

/-- Query string "Foo" (no NUL, as `readCStr` strips the terminator). -/
def qFoo : List Nat := [70, 111, 111]
/-- Query string "Advanced" (no NUL). -/
def qAdvanced : List Nat := [65, 100, 118, 97, 110, 99, 101, 100]
/-- Query string "zz" (no NUL): a name present in no test tree. -/
def qZZ : List Nat := [122, 122]

/-- Tree "Main": root form (size 107) containing one BOOL option named
"Foo" with default value 7.  Record layout: root fixed fields (28), root
UI name "Main" (17), BOOL option at offset 45 (size 62 = 32 fixed +
16 opt name "Foo" + 14 UI name "F"). -/
def mainTree : Bytes :=
  formHeader 107 1 0 ++ varbin CB_TAG_CFR_VARCHAR_UI_NAME nmMain ++
    (numericHeader CB_TAG_CFR_OPTION_BOOL 62 2 0 7 ++
      varbin CB_TAG_CFR_VARCHAR_OPT_NAME nmFoo ++
      varbin CB_TAG_CFR_VARCHAR_UI_NAME nmF)

/-- Tree "Advanced": root form (size 111) containing one BOOL option named
"Foo" with default value 3. -/
def advTree : Bytes :=
  formHeader 111 3 0 ++ varbin CB_TAG_CFR_VARCHAR_UI_NAME nmAdvanced ++
    (numericHeader CB_TAG_CFR_OPTION_BOOL 62 4 0 3 ++
      varbin CB_TAG_CFR_VARCHAR_OPT_NAME nmFoo ++
      varbin CB_TAG_CFR_VARCHAR_UI_NAME nmF)

/-- Tree with root form "R" containing only a nested (empty) form named
"F": root fixed fields (28) + root UI name "R" (14) + nested form at
offset 42 (size 42 = 28 fixed + 14 UI name "F"). -/
def formOnlyTree : Bytes :=
  formHeader 84 10 0 ++ varbin CB_TAG_CFR_VARCHAR_UI_NAME [82, 0] ++
    (formHeader 42 11 0 ++ varbin CB_TAG_CFR_VARCHAR_UI_NAME nmF)

/-- Query string "F" (no NUL): the UI name of `formOnlyTree`'s nested
form. -/
def qF : List Nat := [70]

/-- Tree whose nested form is named "Foo" and which also contains, after
that form, a BOOL leaf option likewise named "Foo" with default value 42:
root fixed fields (28) + root UI name "R" (14) + nested form at offset 42
(size 44 = 28 + 16 UI name "Foo") + BOOL option at offset 86 (size 62). -/
def shadowedFooTree : Bytes :=
  formHeader 148 20 0 ++ varbin CB_TAG_CFR_VARCHAR_UI_NAME [82, 0] ++
    (formHeader 44 21 0 ++ varbin CB_TAG_CFR_VARCHAR_UI_NAME nmFoo) ++
    (numericHeader CB_TAG_CFR_OPTION_BOOL 62 22 0 42 ++
      varbin CB_TAG_CFR_VARCHAR_OPT_NAME nmFoo ++
      varbin CB_TAG_CFR_VARCHAR_UI_NAME nmF)

/-! ## Resolver lemmas -/

/-- A tree whose processing ends in `formHit` makes the whole resolver
return `EFI_NOT_FOUND` immediately, whatever trees follow. -/
theorem resolveAllOut_formHit (t : Bytes) (ts : List Bytes)
    (fn : Option (List Nat)) (o : List Nat)
    (h : (resolveTreeOut t fn o).stop = TreeEnd.formHit) :
    (resolveAllOut fn o (t :: ts)).2 = .ok .notFound none := by
  simp only [resolveAllOut]
  rw [h]

/-- Whenever the resolver returns `EFI_NOT_FOUND`, the output parameters
were never written: the status carries no further information. -/
theorem resolveAllOut_notFound_none (fn : Option (List Nat)) (o : List Nat) :
    ∀ (trees : List Bytes) (d : Option (List Nat)),
      (resolveAllOut fn o trees).2 = .ok .notFound d → d = none := by
  intro trees
  induction trees with
  | nil =>
    intro d h
    simp only [resolveAllOut] at h
    cases h
    rfl
  | cons t ts ih =>
    intro d h
    simp only [resolveAllOut] at h
    cases hs : (resolveTreeOut t fn o).stop <;> rw [hs] at h <;> simp at h
    · cases h
      rfl
    · exact ih d h
    · exact ih d h

/-- A loop outcome never embeds to `skipped`: only the form-name filter
in the per-HOB prologue can skip a tree. -/
theorem LoopEnd.toTreeEnd_ne_skipped (e : LoopEnd) :
    e.toTreeEnd ≠ TreeEnd.skipped := by
  cases e <;> simp [LoopEnd.toTreeEnd]

/-- C5: the resolver takes the supplied trees in enumeration order — a
tree whose root UI name differs from a given form name is skipped without
affecting the result — and returns the first match: with trees
["Main" (Foo ↦ 7), "Advanced" (Foo ↦ 3)], asking for ("Advanced", "Foo")
yields the 4 little-endian bytes of 3 and asking for (no form, "Foo")
yields those of 7, the first match in enumeration order. -/
theorem cfrOptionGetDefaultValue_enumeration_order :
    (∀ (t : Bytes) (ts : List Bytes) (f o : List Nat) (vb : VarBinary) (c : Nat),
        CfrExtractVarBinary t 0 28 CB_TAG_CFR_VARCHAR_UI_NAME = (some vb, c) →
        f ≠ readCStr t (vb.off + 12) →
        (resolveAllOut (some f) o (t :: ts)).2 = (resolveAllOut (some f) o ts).2) ∧
    CfrOptionGetDefaultValue [mainTree, advTree] (some qAdvanced) (some qFoo)
      false = .ok .success (some [3, 0, 0, 0]) ∧
    CfrOptionGetDefaultValue [mainTree, advTree] none (some qFoo)
      false = .ok .success (some [7, 0, 0, 0]) := by
  refine ⟨?_, by decide, by decide⟩
  intro t ts f o vb c h hne
  simp only [resolveAllOut, resolveTreeOut, h]
  simp [hne]

/-- Witness for C5's skip clause: the "Main" tree is skipped when
"Advanced" is requested, and the concrete lookups return 3 and 7. -/
theorem cfrOptionGetDefaultValue_enumeration_order_witness :
    CfrExtractVarBinary mainTree 0 28 CB_TAG_CFR_VARCHAR_UI_NAME =
      (some ⟨28, 8, 17, 5⟩, 45) ∧
    qAdvanced ≠ readCStr mainTree 40 ∧
    (resolveAllOut (some qAdvanced) qFoo [mainTree, advTree]).2 =
      (resolveAllOut (some qAdvanced) qFoo [advTree]).2 := by
  refine ⟨by decide, by decide, ?_⟩
  exact (cfrOptionGetDefaultValue_enumeration_order).1 mainTree [advTree]
    qAdvanced qFoo ⟨28, 8, 17, 5⟩ 45 (by decide) (by decide)

/-- C9: a nested form whose UI name equals the requested option name makes
the resolver return `EFI_NOT_FOUND` at once: the rest of that tree and all
later trees are never examined, so in `shadowedFooTree` the BOOL option
"Foo" (default 42) that follows the nested form "Foo" is never found, no
matter what trees come after. -/
theorem cfrOptionGetDefaultValue_form_hit_short_circuits :
    (∀ (t : Bytes) (ts : List Bytes) (fn : Option (List Nat)) (o : List Nat),
        (resolveTreeOut t fn o).stop = TreeEnd.formHit →
        (resolveAllOut fn o (t :: ts)).2 = .ok .notFound none) ∧
    (∀ ts : List Bytes,
        CfrOptionGetDefaultValue (shadowedFooTree :: ts) none (some qFoo)
          false = .ok .notFound none) := by
  constructor
  · exact fun t ts fn o h => resolveAllOut_formHit t ts fn o h
  · intro ts
    show (resolveAllOut none qFoo (shadowedFooTree :: ts)).2 = _
    exact resolveAllOut_formHit shadowedFooTree ts none qFoo (by decide)

/-- Witness for C9 with the remaining-trees list instantiated: a later
tree containing a leaf "Foo" (the "Main" tree) is never reached. -/
theorem cfrOptionGetDefaultValue_form_hit_short_circuits_witness :
    (resolveTreeOut shadowedFooTree none qFoo).stop = TreeEnd.formHit ∧
    CfrOptionGetDefaultValue [shadowedFooTree, mainTree] none (some qFoo)
      false = .ok .notFound none :=
  ⟨by decide,
   (cfrOptionGetDefaultValue_form_hit_short_circuits).2 [mainTree]⟩

/-- C10: a NULL `OptionName` or a NULL `DefaultValueData` pointer makes
the function return `EFI_INVALID_PARAMETER` with the outputs untouched and
no tree examined (the result is the same for every tree list), while a
NULL `FormName` merely disables the per-tree name filter: with
`fn = none` no tree is ever skipped. -/
theorem cfrOptionGetDefaultValue_null_parameter_check :
    (∀ (trees : List Bytes) (fn o : Option (List Nat)) (pn : Bool),
        o = none ∨ pn = true →
        CfrOptionGetDefaultValue trees fn o pn = .ok .invalidParameter none) ∧
    (∀ (buf : Bytes) (o : List Nat),
        (resolveTreeOut buf none o).stop ≠ TreeEnd.skipped) := by
  constructor
  · rintro trees fn o pn (rfl | rfl)
    · rfl
    · cases o <;> rfl
  · intro buf o
    simp only [resolveTreeOut]
    cases h : (CfrExtractVarBinary buf 0 28 CB_TAG_CFR_VARCHAR_UI_NAME).1 with
    | none =>
      simp [h, LoopOut.toTreeOut]
      exact LoopEnd.toTreeEnd_ne_skipped _
    | some vb =>
      simp [h, LoopOut.toTreeOut, TreeOut.pre]
      exact LoopEnd.toTreeEnd_ne_skipped _

/-- Witness for C10: NULL option name at a concrete tree list, and the
concrete "Main" tree is not skipped when no form name is given. -/
theorem cfrOptionGetDefaultValue_null_parameter_check_witness :
    CfrOptionGetDefaultValue [mainTree] none none false =
      .ok .invalidParameter none ∧
    (resolveTreeOut mainTree none qFoo).stop ≠ TreeEnd.skipped :=
  ⟨(cfrOptionGetDefaultValue_null_parameter_check).1 [mainTree] none none
      false (Or.inl rfl),
   (cfrOptionGetDefaultValue_null_parameter_check).2 mainTree qFoo⟩

/-- C2 counterexample: querying the nested form's own name ("F" in
`formOnlyTree`) and querying a name that exists nowhere ("zz") return
byte-for-byte identical results — `EFI_NOT_FOUND` with the outputs
untouched — so the caller cannot distinguish "found a form, no default"
from "name not found at all". -/
theorem formHit_indistinguishable_counterexample :
    CfrOptionGetDefaultValue [formOnlyTree] none (some qF) false =
      CfrOptionGetDefaultValue [formOnlyTree] none (some qZZ) false ∧
    CfrOptionGetDefaultValue [formOnlyTree] none (some qF) false =
      .ok .notFound none := by
  exact ⟨by decide, by decide⟩

/-- C2 amended: a form-name match does fail the lookup with
`EFI_NOT_FOUND`, but that status never carries any further data — the
outputs are untouched whenever `EFI_NOT_FOUND` is returned — so a form
match is observationally identical to true absence. -/
theorem cfrOptionGetDefaultValue_notFound_carries_no_data :
    (∀ (trees : List Bytes) (fn o : Option (List Nat)) (pn : Bool)
        (d : Option (List Nat)),
        CfrOptionGetDefaultValue trees fn o pn = .ok .notFound d → d = none) ∧
    CfrOptionGetDefaultValue [formOnlyTree] none (some qF) false =
      .ok .notFound none ∧
    CfrOptionGetDefaultValue [formOnlyTree] none (some qZZ) false =
      .ok .notFound none := by
  refine ⟨?_, by decide, by decide⟩
  intro trees fn o pn d h
  match o, pn with
  | none, pn => simp [CfrOptionGetDefaultValue] at h
  | some x, true => simp [CfrOptionGetDefaultValue] at h
  | some x, false => exact resolveAllOut_notFound_none fn x trees d h

/-- Witness for C2's amended claim at the form-hit input. -/
theorem cfrOptionGetDefaultValue_notFound_carries_no_data_witness :
    CfrOptionGetDefaultValue [formOnlyTree] none (some qF) false =
      .ok .notFound none ∧ (none : Option (List Nat)) = none :=
  ⟨by decide,
   (cfrOptionGetDefaultValue_notFound_carries_no_data).1 [formOnlyTree]
     none (some qF) false none (by decide)⟩

/-- A malformed tree whose root form declares `size = 29` although its
fixed fields already occupy 28 bytes and the UI-name varbinary record
that follows spans offsets 28..40 (13 bytes). -/
def shortSizeTree : Bytes :=
  formHeader 29 30 0 ++ varbin CB_TAG_CFR_VARCHAR_UI_NAME [0]

/-- C3 counterexample: the resolver consumes the varbinary record at
offset 28 of `shortSizeTree` — dereferencing its 12-byte header at
offsets 28..39 — although the enclosing record's declared size is 29, so
only byte 28 of it lies within the declared bounds: neither
`CfrExtractVarBinary` nor its caller checks
`cursor + header_length <= parent_end` before dereferencing. -/
theorem extractor_reads_past_declared_bounds_counterexample :
    resolveTreeOut shortSizeTree none [90] =
      ⟨[(28, CB_TAG_CFR_VARCHAR_UI_NAME)], TreeEnd.finished⟩ ∧
    readU32 shortSizeTree 4 = 29 ∧
    shortSizeTree.length = 41 ∧
    29 < 28 + 12 := by
  exact ⟨by decide, by decide, by decide, by decide⟩

/-- Four-byte little-endian reads are determined by their four bytes. -/
theorem readU32_congr (b1 b2 : Bytes) (o : Nat)
    (h0 : readU8 b1 o = readU8 b2 o)
    (h1 : readU8 b1 (o + 1) = readU8 b2 (o + 1))
    (h2 : readU8 b1 (o + 2) = readU8 b2 (o + 2))
    (h3 : readU8 b1 (o + 3) = readU8 b2 (o + 3)) :
    readU32 b1 o = readU32 b2 o := by
  unfold readU32
  rw [h0, h1, h2, h3]

/-- C3 amended: `CfrExtractVarBinary` consults no bounds information at
all — its entire behaviour is determined by the 12 header bytes at the
cursor, so two buffers agreeing on that window are extracted identically
regardless of any declared sizes around them; in-bounds operation relies
entirely on the producer supplying consistent `size` fields. -/
theorem cfrExtractVarBinary_reads_only_header (b1 b2 : Bytes)
    (base c t : Nat)
    (h : ∀ i, i < 12 → readU8 b1 (base + c + i) = readU8 b2 (base + c + i)) :
    CfrExtractVarBinary b1 base c t = CfrExtractVarBinary b2 base c t := by
  have g : ∀ j, j + 3 < 12 →
      readU32 b1 (base + c + j) = readU32 b2 (base + c + j) := by
    intro j hj
    apply readU32_congr
    · exact h j (by omega)
    · simpa [Nat.add_assoc] using h (j + 1) (by omega)
    · simpa [Nat.add_assoc] using h (j + 2) (by omega)
    · simpa [Nat.add_assoc] using h (j + 3) (by omega)
  have g0 : readU32 b1 (base + c) = readU32 b2 (base + c) := by
    simpa using g 0 (by omega)
  simp only [CfrExtractVarBinary, g0, g 4 (by omega), g 8 (by omega)]

/-- Witness for C3's amended claim: appending a byte after the record
leaves the extraction unchanged. -/
theorem cfrExtractVarBinary_reads_only_header_witness :
    (∀ i, i < 12 →
        readU8 shortSizeTree (0 + 28 + i) =
          readU8 (shortSizeTree ++ [99]) (0 + 28 + i)) ∧
    CfrExtractVarBinary shortSizeTree 0 28 CB_TAG_CFR_VARCHAR_UI_NAME =
      CfrExtractVarBinary (shortSizeTree ++ [99]) 0 28
        CB_TAG_CFR_VARCHAR_UI_NAME :=
  ⟨by decide,
   cfrExtractVarBinary_reads_only_header shortSizeTree (shortSizeTree ++ [99])
     0 28 CB_TAG_CFR_VARCHAR_UI_NAME (by decide)⟩

/-! ## Tree walker (`CfrCreateRuntimeComponents`, SetupMenuCfr.c) -/

/-- Abstracted visitor calls of the walker: subtitle creation for a form's
UI name, `CfrProduceStorageForOption` on an option's internal name, one
`HiiCreateOneOfOptionOpCode` per enum value, question opcodes per option
kind, the oversized-string rejection log, and the unknown-tag warning. -/
inductive WalkEvent
  | formSubtitle (nameOff : Nat)
  | storage (name : List Nat)
  | enumEntry (value : Nat)
  | oneOfQ
  | numberQ
  | checkboxQ
  | stringQ
  | textQ
  | rejectOversized (len : Nat)
  | warnUnknown (tag : Nat)
deriving DecidableEq, Repr

/-- How a per-option handler returns: normally, by dereferencing the NULL
result of a failed mandatory extraction, or by a non-terminating enum
sub-loop. -/
inductive HandlerEnd
  | ok
  | crashed
  | hung
deriving DecidableEq, Repr

/-- Result of one per-option handler: emitted events, consumed varbinary
records, and how it returned. -/
structure HOut where
  events : List WalkEvent
  trace : List (Nat × Nat)
  stop : HandlerEnd
deriving DecidableEq, Repr

/-- Result of the enum-value sub-loop of `CfrProcessNumericOption`:
events, consumed sub-records, the final `OptionProcessedLength`, and
whether the loop terminated within its fuel. -/
structure ELOut where
  events : List WalkEvent
  trace : List (Nat × Nat)
  final : Nat
  ok : Bool
deriving DecidableEq, Repr

/-- Shallow embedding of `CfrProcessFormOption`.  `base` is the record
pointer the C code passes as `Option`, `pl` the running `ProcessedLength`
(which CfrCreateRuntimeComponents passes by reference): the cursor is
advanced by `sizeof (CFR_OPTION_FORM)` and the UI name is then read at
`base + cursor` — for a nested form `base = pl ≠ 0` so the dereference
lands at `2 * pl + 28` while the cursor advances from `pl + 28`, exactly
as the C code behaves.  Returns events, consumed records, and the new
`ProcessedLength` (`none` models the NULL dereference when the mandatory
UI name is absent). -/
def CfrProcessFormOption (buf : Bytes) (base pl : Nat) :
    List WalkEvent × List (Nat × Nat) × Option Nat :=
  match CfrExtractVarBinary buf base (pl + 28) CB_TAG_CFR_VARCHAR_UI_NAME with
  | (none, _) => ([], [], none)
  | (some vb, pl2) => ([.formSubtitle vb.off], [(vb.off, vb.tag)], some pl2)

/-- The enum-value sub-loop of `CfrProcessNumericOption` (lines 400-419):
`while (OptionProcessedLength < Option->size)` reinterpret the bytes at
`Option + OptionProcessedLength` as a `CFR_ENUM_VALUE` (the tag `ASSERT`s
are release no-ops), emit one one-of option per record with its `value`,
and advance by the record's declared `size`. -/
def enumLoop (buf : Bytes) (p s : Nat) : Nat → Nat → ELOut
  | 0, opl =>
    if opl < s then ⟨[], [], opl, false⟩ else ⟨[], [], opl, true⟩
  | fuel + 1, opl =>
    if opl < s then
      let etag := readU32 buf (p + opl)
      let esz := readU32 buf (p + opl + 4)
      let ev := readU32 buf (p + opl + 8)
      let utag := readU32 buf (p + opl + 12)
      let r := enumLoop buf p s fuel (opl + esz)
      ⟨.enumEntry ev :: r.events,
       (p + opl, etag) :: (p + opl + 12, utag) :: r.trace, r.final, r.ok⟩
    else ⟨[], [], opl, true⟩

/-- Shallow embedding of `CfrProcessNumericOption` at record offset `p`:
extract internal name (mandatory), UI name (mandatory), help text
(optional), create storage from the internal name, then emit the
kind-specific question opcode — iterating the trailing enum-value records
first when the tag is ENUM. -/
def CfrProcessNumericOption (buf : Bytes) (p : Nat) : HOut :=
  let tag := readU32 buf p
  let s := readU32 buf (p + 4)
  let e1 := CfrExtractVarBinary buf p 32 CB_TAG_CFR_VARCHAR_OPT_NAME
  let e2 := CfrExtractVarBinary buf p e1.2 CB_TAG_CFR_VARCHAR_UI_NAME
  let e3 := CfrExtractVarBinary buf p e2.2 CB_TAG_CFR_VARCHAR_UI_HELPTEXT
  let tr := vtr e1.1 ++ vtr e2.1 ++ vtr e3.1
  match e1.1 with
  | none => ⟨[], tr, .crashed⟩
  | some n =>
    let stEv := WalkEvent.storage (readCStr buf (n.off + 12))
    match e2.1 with
    | none => ⟨[stEv], tr, .crashed⟩
    | some _ =>
      if tag = CB_TAG_CFR_OPTION_ENUM then
        let r := enumLoop buf p s (s + 1) e3.2
        if r.ok then
          ⟨stEv :: (r.events ++ [.oneOfQ]), tr ++ r.trace, .ok⟩
        else
          ⟨stEv :: r.events, tr ++ r.trace, .hung⟩
      else if tag = CB_TAG_CFR_OPTION_NUMBER then
        ⟨[stEv, .numberQ], tr, .ok⟩
      else
        ⟨[stEv, .checkboxQ], tr, .ok⟩

/-- Shallow embedding of `CfrProcessCharacterOption` at record offset `p`.
For a VARCHAR option the default value is extracted FIRST (before the
internal name, UI name and help text); a default whose `data_length`
exceeds 0xFF is logged and the handler returns at once.  For a COMMENT
only the UI name (mandatory) and help text are extracted. -/
def CfrProcessCharacterOption (buf : Bytes) (p : Nat) : HOut :=
  let tag := readU32 buf p
  if tag = CB_TAG_CFR_OPTION_VARCHAR then
    let e1 := CfrExtractVarBinary buf p 28 CB_TAG_CFR_VARCHAR_DEF_VALUE
    match e1.1 with
    | none => ⟨[], [], .crashed⟩
    | some d =>
      if 255 < d.data_length then
        ⟨[.rejectOversized d.data_length], [(d.off, d.tag)], .ok⟩
      else
        let e2 := CfrExtractVarBinary buf p e1.2 CB_TAG_CFR_VARCHAR_OPT_NAME
        let e3 := CfrExtractVarBinary buf p e2.2 CB_TAG_CFR_VARCHAR_UI_NAME
        let e4 := CfrExtractVarBinary buf p e3.2 CB_TAG_CFR_VARCHAR_UI_HELPTEXT
        let tr := (d.off, d.tag) :: (vtr e2.1 ++ vtr e3.1 ++ vtr e4.1)
        match e2.1 with
        | none => ⟨[], tr, .crashed⟩
        | some n =>
          let stEv := WalkEvent.storage (readCStr buf (n.off + 12))
          match e3.1 with
          | none => ⟨[stEv], tr, .crashed⟩
          | some _ => ⟨[stEv, .stringQ], tr, .ok⟩
  else
    let e3 := CfrExtractVarBinary buf p 28 CB_TAG_CFR_VARCHAR_UI_NAME
    let e4 := CfrExtractVarBinary buf p e3.2 CB_TAG_CFR_VARCHAR_UI_HELPTEXT
    let tr := vtr e3.1 ++ vtr e4.1
    match e3.1 with
    | none => ⟨[], tr, .crashed⟩
    | some _ =>
      if tag = CB_TAG_CFR_OPTION_COMMENT then ⟨[.textQ], tr, .ok⟩
      else ⟨[], tr, .ok⟩

/-- How the walker's record loop ends. -/
inductive WalkEnd
  | finished (pl : Nat)
  | crashed
  | fuelOut
deriving DecidableEq, Repr

/-- Result of the walker: events, consumed records, and how it stopped. -/
structure WalkOut where
  events : List WalkEvent
  trace : List (Nat × Nat)
  stop : WalkEnd
deriving DecidableEq, Repr

/-- Prepend events and consumed records to a walker result. -/
def WalkOut.pre (evs : List WalkEvent) (tr : List (Nat × Nat))
    (o : WalkOut) : WalkOut :=
  ⟨evs ++ o.events, tr ++ o.trace, o.stop⟩

/-- The record loop of `CfrCreateRuntimeComponents`
(`while (ProcessedLength < CfrFormHob->size)`): dispatch on the record
tag; nested forms advance the cursor past the header and UI-name field
(passing the record pointer as base, reproducing the C call
`CfrProcessFormOption (CfrFormData, ..., &ProcessedLength)`), every other
recognised kind advances by the record's declared `size`, and unknown
tags are logged and skipped by `size`. -/
def walkLoop (buf : Bytes) : Nat → Nat → WalkOut
  | 0, pl =>
    if pl < readU32 buf 4 then ⟨[], [], .fuelOut⟩ else ⟨[], [], .finished pl⟩
  | fuel + 1, pl =>
    if pl < readU32 buf 4 then
      let tag := readU32 buf pl
      let s := readU32 buf (pl + 4)
      if tag = CB_TAG_CFR_OPTION_FORM then
        match CfrProcessFormOption buf pl pl with
        | (evs, tr, none) => ⟨evs, (pl, tag) :: tr, .crashed⟩
        | (evs, tr, some pl2) =>
          WalkOut.pre evs ((pl, tag) :: tr) (walkLoop buf fuel pl2)
      else if tag = CB_TAG_CFR_OPTION_ENUM ∨ tag = CB_TAG_CFR_OPTION_NUMBER ∨
          tag = CB_TAG_CFR_OPTION_BOOL then
        let h := CfrProcessNumericOption buf pl
        match h.stop with
        | .ok => WalkOut.pre h.events ((pl, tag) :: h.trace)
            (walkLoop buf fuel (pl + s))
        | .crashed => ⟨h.events, (pl, tag) :: h.trace, .crashed⟩
        | .hung => ⟨h.events, (pl, tag) :: h.trace, .fuelOut⟩
      else if tag = CB_TAG_CFR_OPTION_VARCHAR ∨
          tag = CB_TAG_CFR_OPTION_COMMENT then
        let h := CfrProcessCharacterOption buf pl
        match h.stop with
        | .ok => WalkOut.pre h.events ((pl, tag) :: h.trace)
            (walkLoop buf fuel (pl + s))
        | .crashed => ⟨h.events, (pl, tag) :: h.trace, .crashed⟩
        | .hung => ⟨h.events, (pl, tag) :: h.trace, .fuelOut⟩
      else
        WalkOut.pre [.warnUnknown tag] [(pl, tag)] (walkLoop buf fuel (pl + s))
    else ⟨[], [], .finished pl⟩

/-- Walk one form tree: process the root form (base 0, cursor 0 — the one
call where `CfrProcessFormOption`'s base and running length agree), then
run the record loop. -/
def walkTree (buf : Bytes) : WalkOut :=
  match CfrProcessFormOption buf 0 0 with
  | (evs, tr, none) => ⟨evs, tr, .crashed⟩
  | (evs, tr, some pl1) =>
    WalkOut.pre evs tr (walkLoop buf (readU32 buf 4 + 1) pl1)

/-- Shallow embedding of `CfrCreateRuntimeComponents`' HOB iteration:
walk each tree in turn; a crash or divergence aborts the pass. -/
def CfrCreateRuntimeComponents : List Bytes → WalkOut
  | [] => ⟨[], [], .finished 0⟩
  | t :: ts =>
    let w := walkTree t
    match w.stop with
    | .finished _ => WalkOut.pre w.events w.trace (CfrCreateRuntimeComponents ts)
    | _ => w

/-- A well-formed tree whose VARCHAR option is laid out in the order the
walker extracts (default value, internal name, UI name): root "R" (42) +
VARCHAR option at offset 42 (size 72 = 28 fixed + 14 default + 16 name
"Foo" + 14 UI name "F"). -/
def wvTree : Bytes :=
  formHeader 114 60 0 ++ varbin CB_TAG_CFR_VARCHAR_UI_NAME [82, 0] ++
    (varcharHeader CB_TAG_CFR_OPTION_VARCHAR 72 61 0 ++
      varbin CB_TAG_CFR_VARCHAR_DEF_VALUE [65, 0] ++
      varbin CB_TAG_CFR_VARCHAR_OPT_NAME nmFoo ++
      varbin CB_TAG_CFR_VARCHAR_UI_NAME nmF)

/-- C1 counterexample: the resolver and the walker do NOT consume the same
(offset, tag) record sequence.  On `mainTree` (one BOOL option) the walker
additionally consumes the option's UI name at offset 93, which the
resolver never touches; on `wvTree` (a VARCHAR option laid out
default-value-first, the walker's extraction order) the resolver — which
extracts the internal name first — consumes only the default-value record
at offset 70 before dereferencing the NULL internal-name result, while
the walker consumes default value, internal name and UI name. -/
theorem resolver_walker_trace_counterexample :
    (resolveAllOut none qZZ [mainTree]).1 = [(28, 8), (45, 5), (77, 7)] ∧
    (CfrCreateRuntimeComponents [mainTree]).trace =
      [(28, 8), (45, 5), (77, 7), (93, 8)] ∧
    (resolveAllOut none qZZ [mainTree]).1 ≠
      (CfrCreateRuntimeComponents [mainTree]).trace ∧
    (resolveAllOut none qZZ [wvTree]).1 = [(28, 8), (42, 6), (70, 10)] ∧
    (resolveAllOut none qZZ [wvTree]).2 = ResolveResult.crash ∧
    (CfrCreateRuntimeComponents [wvTree]).trace =
      [(28, 8), (42, 6), (70, 10), (84, 7), (100, 8)] := by
  exact ⟨by decide, by decide, by decide, by decide, by decide, by decide⟩

/-- When both mandatory extractions succeed and the record is not an ENUM,
`CfrProcessNumericOption` returns normally. -/
theorem cfrProcessNumericOption_ok_of_extractions (buf : Bytes) (p : Nat)
    (n u : VarBinary) (c1 c2 : Nat)
    (htag : readU32 buf p ≠ CB_TAG_CFR_OPTION_ENUM)
    (hn : CfrExtractVarBinary buf p 32 CB_TAG_CFR_VARCHAR_OPT_NAME =
      (some n, c1))
    (hu : CfrExtractVarBinary buf p c1 CB_TAG_CFR_VARCHAR_UI_NAME =
      (some u, c2)) :
    (CfrProcessNumericOption buf p).stop = HandlerEnd.ok := by
  simp only [CfrProcessNumericOption, hn, hu]
  split_ifs <;> simp_all

/-- C1 amended: on a NUMBER or BOOL record where the names do not match,
the resolver and the walker perform the same structural advance — both
continue at `pl + size` — even though the walker consumes more sub-fields
(the resolver decodes only the internal name); the consumed (offset, tag)
sequences themselves, and the VARCHAR sub-field orders (resolver:
internal name, UI name, help text, default; walker: default, internal
name, UI name, help text), differ. -/
theorem resolver_walker_same_advance_on_plain_options (buf : Bytes)
    (o : List Nat) (pl fuel : Nat) (n u : VarBinary) (c1 c2 : Nat)
    (hlt : pl < readU32 buf 4)
    (htag : readU32 buf pl = CB_TAG_CFR_OPTION_NUMBER ∨
      readU32 buf pl = CB_TAG_CFR_OPTION_BOOL)
    (hn : CfrExtractVarBinary buf pl 32 CB_TAG_CFR_VARCHAR_OPT_NAME =
      (some n, c1))
    (hne : o ≠ readCStr buf (n.off + 12))
    (hu : CfrExtractVarBinary buf pl c1 CB_TAG_CFR_VARCHAR_UI_NAME =
      (some u, c2)) :
    (∃ tr, resolveLoop buf o (fuel + 1) pl =
        LoopOut.pre tr (resolveLoop buf o fuel (pl + readU32 buf (pl + 4)))) ∧
    (∃ evs tr, walkLoop buf (fuel + 1) pl =
        WalkOut.pre evs tr (walkLoop buf fuel (pl + readU32 buf (pl + 4)))) := by
  have hok : (CfrProcessNumericOption buf pl).stop = HandlerEnd.ok := by
    apply cfrProcessNumericOption_ok_of_extractions buf pl n u c1 c2 _ hn hu
    rcases htag with h | h <;> rw [h] <;> decide
  constructor
  · refine ⟨[(pl, readU32 buf pl), (n.off, n.tag)], ?_⟩
    simp only [resolveLoop]
    rw [if_pos hlt]
    rcases htag with h | h <;>
      simp [h, CB_TAG_CFR_OPTION_FORM, CB_TAG_CFR_OPTION_ENUM,
        CB_TAG_CFR_OPTION_NUMBER, CB_TAG_CFR_OPTION_BOOL,
        CB_TAG_CFR_OPTION_VARCHAR, hn, hne]
  · refine ⟨(CfrProcessNumericOption buf pl).events,
      (pl, readU32 buf pl) :: (CfrProcessNumericOption buf pl).trace, ?_⟩
    simp only [walkLoop]
    rw [if_pos hlt]
    rcases htag with h | h <;>
      simp [h, hok, CB_TAG_CFR_OPTION_FORM, CB_TAG_CFR_OPTION_ENUM,
        CB_TAG_CFR_OPTION_NUMBER, CB_TAG_CFR_OPTION_BOOL,
        CB_TAG_CFR_OPTION_VARCHAR, CB_TAG_CFR_OPTION_COMMENT]

/-- Witness for C1's amended claim at the BOOL option of `mainTree`
(record offset 45, size 62): both traversals continue at 107. -/
theorem resolver_walker_same_advance_witness :
    45 < readU32 mainTree 4 ∧
    (∃ tr, resolveLoop mainTree qZZ 61 45 =
        LoopOut.pre tr (resolveLoop mainTree qZZ 60 (45 + readU32 mainTree (45 + 4)))) ∧
    (∃ evs tr, walkLoop mainTree 61 45 =
        WalkOut.pre evs tr (walkLoop mainTree 60 (45 + readU32 mainTree (45 + 4)))) := by
  refine ⟨by decide, ?_, ?_⟩
  · exact (resolver_walker_same_advance_on_plain_options mainTree qZZ 45 60
      ⟨77, 7, 16, 4⟩ ⟨93, 8, 14, 2⟩ 48 62 (by decide) (Or.inr (by decide))
      (by decide) (by decide) (by decide)).1
  · exact (resolver_walker_same_advance_on_plain_options mainTree qZZ 45 60
      ⟨77, 7, 16, 4⟩ ⟨93, 8, 14, 2⟩ 48 62 (by decide) (Or.inr (by decide))
      (by decide) (by decide) (by decide)).2

/-- Tree containing a VARCHAR option whose default value declares
`data_length = 300` (over the 0xFF cap), followed by a BOOL sibling named
"Bar": root "R" (42) + VARCHAR at offset 42 (size 370 = 28 fixed +
312 default + 16 name + 14 UI name) + BOOL at offset 412 (size 62). -/
def oversizedTree : Bytes :=
  formHeader 474 40 0 ++ varbin CB_TAG_CFR_VARCHAR_UI_NAME [82, 0] ++
    (varcharHeader CB_TAG_CFR_OPTION_VARCHAR 370 41 0 ++
      varbin CB_TAG_CFR_VARCHAR_DEF_VALUE (List.replicate 300 7) ++
      varbin CB_TAG_CFR_VARCHAR_OPT_NAME nmFoo ++
      varbin CB_TAG_CFR_VARCHAR_UI_NAME nmF) ++
    (numericHeader CB_TAG_CFR_OPTION_BOOL 62 42 0 9 ++
      varbin CB_TAG_CFR_VARCHAR_OPT_NAME nmBar ++
      varbin CB_TAG_CFR_VARCHAR_UI_NAME nmF)

/-- C6: a VARCHAR option whose extracted default-value field declares
`data_length > 255` is rejected — the handler emits only the rejection
log, no storage and no UI element — and the walker's loop still advances
the running cursor by the option's full declared `size`, so the following
sibling records are decoded by the ordinary loop continuation. -/
theorem oversized_varchar_rejected (buf : Bytes) (pl : Nat) (d : VarBinary)
    (c fuel : Nat)
    (htag : readU32 buf pl = CB_TAG_CFR_OPTION_VARCHAR)
    (hd : CfrExtractVarBinary buf pl 28 CB_TAG_CFR_VARCHAR_DEF_VALUE =
      (some d, c))
    (hbig : 255 < d.data_length)
    (hlt : pl < readU32 buf 4) :
    CfrProcessCharacterOption buf pl =
      ⟨[.rejectOversized d.data_length], [(d.off, d.tag)], .ok⟩ ∧
    walkLoop buf (fuel + 1) pl =
      WalkOut.pre [.rejectOversized d.data_length]
        [(pl, CB_TAG_CFR_OPTION_VARCHAR), (d.off, d.tag)]
        (walkLoop buf fuel (pl + readU32 buf (pl + 4))) := by
  have hh : CfrProcessCharacterOption buf pl =
      ⟨[.rejectOversized d.data_length], [(d.off, d.tag)], .ok⟩ := by
    simp only [CfrProcessCharacterOption, htag, hd]
    simp [hbig]
  refine ⟨hh, ?_⟩
  simp only [walkLoop]
  rw [if_pos hlt]
  simp [htag, hh, CB_TAG_CFR_OPTION_FORM, CB_TAG_CFR_OPTION_ENUM,
    CB_TAG_CFR_OPTION_NUMBER, CB_TAG_CFR_OPTION_BOOL,
    CB_TAG_CFR_OPTION_VARCHAR, CB_TAG_CFR_OPTION_COMMENT]

/-- Witness for C6 at `oversizedTree` (VARCHAR at offset 42, default
`data_length = 300`), plus the concrete full-walk event list showing the
BOOL sibling "Bar" still decoded normally after the rejection. -/
theorem oversized_varchar_rejected_witness :
    readU32 oversizedTree 42 = CB_TAG_CFR_OPTION_VARCHAR ∧
    CfrProcessCharacterOption oversizedTree 42 =
      ⟨[.rejectOversized 300], [(70, 10)], .ok⟩ ∧
    (CfrCreateRuntimeComponents [oversizedTree]).events =
      [.formSubtitle 28, .rejectOversized 300, .storage [66, 97, 114],
       .checkboxQ] ∧
    (walkTree oversizedTree).stop = WalkEnd.finished 474 := by
  refine ⟨by decide, ?_, by decide, by decide⟩
  exact (oversized_varchar_rejected oversizedTree 42 ⟨70, 10, 312, 300⟩
    340 50 (by decide) (by decide) (by decide) (by decide)).1

/-! ## Enum-value layout and exhaustiveness -/

/-- Well-formed trailing enum-value area of an ENUM option at record
offset `p`: starting at relative offset `o`, the bytes describe a list of
sub-records with the given `value` fields whose positive declared sizes
sum exactly to `stop`. -/
inductive EnumLayout (buf : Bytes) (p : Nat) : Nat → Nat → List Nat → Prop
  | nil (o : Nat) : EnumLayout buf p o o []
  | cons (o stop sz v : Nat) (vs : List Nat)
      (hsz : readU32 buf (p + o + 4) = sz) (hpos : 0 < sz)
      (hv : readU32 buf (p + o + 8) = v)
      (htail : EnumLayout buf p (o + sz) stop vs) :
      EnumLayout buf p o stop (v :: vs)

/-- The enum-value area never extends backwards: its start plus the number
of sub-records is bounded by its end. -/
theorem EnumLayout.length_le (buf : Bytes) (p : Nat) :
    ∀ {o stop : Nat} {vs : List Nat}, EnumLayout buf p o stop vs →
      o + vs.length ≤ stop := by
  intro o stop vs h
  induction h with
  | nil o => simp
  | cons o stop sz v vs hsz hpos hv htail ih =>
    simp only [List.length_cons]
    omega

/-- Over a well-formed enum-value area the sub-loop emits exactly one
one-of entry per sub-record, in order and with each record's `value`, and
its final consumed length is exactly the area's end. -/
theorem enumLoop_of_layout (buf : Bytes) (p : Nat) :
    ∀ {o stop : Nat} {vs : List Nat}, EnumLayout buf p o stop vs →
      ∀ fuel, vs.length ≤ fuel →
        (enumLoop buf p stop fuel o).events = vs.map WalkEvent.enumEntry ∧
        (enumLoop buf p stop fuel o).final = stop ∧
        (enumLoop buf p stop fuel o).ok = true := by
  intro o stop vs h
  induction h with
  | nil o =>
    intro fuel _
    cases fuel <;> simp [enumLoop]
  | cons o stop sz v vs hsz hpos hv htail ih =>
    intro fuel hlen
    have hlt : o < stop := by
      have := htail.length_le
      omega
    obtain ⟨fuel, rfl⟩ : ∃ f, fuel = f + 1 := by
      cases fuel with
      | zero => simp at hlen
      | succ f => exact ⟨f, rfl⟩
    have hlen2 : vs.length ≤ fuel := by
      simp only [List.length_cons] at hlen
      omega
    have ih2 := ih fuel hlen2
    simp only [enumLoop, if_pos hlt, hsz, hv]
    exact ⟨by simp [ih2.1], by simp [ih2.2.1], by simp [ih2.2.2]⟩

/-- C7: for an ENUM option at offset `p` whose declared `size` spans
exactly the given list of enum-value sub-records after the fixed and
variable name/help fields, the walker emits one enum-value UI entry per
sub-record (in order, with that sub-record's `value`), the running
consumed length exactly reaches the option's declared `size` when the
sub-loop ends, and the handler returns normally. -/
theorem enum_walker_exhaustive (buf : Bytes) (p : Nat) (n u : VarBinary)
    (c1 c2 : Nat) (hres : Option VarBinary) (c3 : Nat) (vs : List Nat)
    (htag : readU32 buf p = CB_TAG_CFR_OPTION_ENUM)
    (hn : CfrExtractVarBinary buf p 32 CB_TAG_CFR_VARCHAR_OPT_NAME =
      (some n, c1))
    (hu : CfrExtractVarBinary buf p c1 CB_TAG_CFR_VARCHAR_UI_NAME =
      (some u, c2))
    (hh : CfrExtractVarBinary buf p c2 CB_TAG_CFR_VARCHAR_UI_HELPTEXT =
      (hres, c3))
    (hlay : EnumLayout buf p c3 (readU32 buf (p + 4)) vs) :
    (CfrProcessNumericOption buf p).events =
      WalkEvent.storage (readCStr buf (n.off + 12)) ::
        (vs.map WalkEvent.enumEntry ++ [WalkEvent.oneOfQ]) ∧
    (enumLoop buf p (readU32 buf (p + 4))
      (readU32 buf (p + 4) + 1) c3).final = readU32 buf (p + 4) ∧
    (CfrProcessNumericOption buf p).stop = HandlerEnd.ok := by
  have hfuel : vs.length ≤ readU32 buf (p + 4) + 1 := by
    have := hlay.length_le
    omega
  have hloop := enumLoop_of_layout buf p hlay (readU32 buf (p + 4) + 1) hfuel
  refine ⟨?_, hloop.2.1, ?_⟩ <;>
    simp [CfrProcessNumericOption, hn, hu, hh, htag, hloop.1, hloop.2.1,
      hloop.2.2]

/-- Tree with one ENUM option carrying two enum values (0 labelled "A",
1 labelled "B"): root "R" (42) + ENUM at offset 42 (size 114 = 32 fixed +
16 name "Foo" + 14 UI name "F" + two 26-byte enum-value records at
relative offsets 62 and 88). -/
def enumTree : Bytes :=
  formHeader 156 50 0 ++ varbin CB_TAG_CFR_VARCHAR_UI_NAME [82, 0] ++
    (numericHeader CB_TAG_CFR_OPTION_ENUM 114 51 0 1 ++
      varbin CB_TAG_CFR_VARCHAR_OPT_NAME nmFoo ++
      varbin CB_TAG_CFR_VARCHAR_UI_NAME nmF ++
      (u32le CB_TAG_CFR_ENUM_VALUE ++ u32le 26 ++ u32le 0 ++
        varbin CB_TAG_CFR_VARCHAR_UI_NAME [65, 0]) ++
      (u32le CB_TAG_CFR_ENUM_VALUE ++ u32le 26 ++ u32le 1 ++
        varbin CB_TAG_CFR_VARCHAR_UI_NAME [66, 0]))

/-- Witness for C7 at `enumTree`'s ENUM option (offset 42, size 114, two
enum-value sub-records), plus the concrete full-walk event list. -/
theorem enum_walker_exhaustive_witness :
    readU32 enumTree 42 = CB_TAG_CFR_OPTION_ENUM ∧
    (CfrProcessNumericOption enumTree 42).events =
      WalkEvent.storage qFoo ::
        ([0, 1].map WalkEvent.enumEntry ++ [WalkEvent.oneOfQ]) ∧
    (enumLoop enumTree 42 114 115 62).final = 114 ∧
    (CfrCreateRuntimeComponents [enumTree]).events =
      [.formSubtitle 28, .storage qFoo, .enumEntry 0, .enumEntry 1,
       .oneOfQ] := by
  have hlay : EnumLayout enumTree 42 62 114 [0, 1] := by
    refine EnumLayout.cons 62 114 26 0 [1] (by decide) (by decide) (by decide)
      (EnumLayout.cons 88 114 26 1 [] (by decide) (by decide) (by decide)
        (EnumLayout.nil 114))
  have h := enum_walker_exhaustive enumTree 42 ⟨74, 7, 16, 4⟩ ⟨90, 8, 14, 2⟩
    48 62 none 62 [0, 1] (by decide) (by decide) (by decide) (by decide)
    (by simpa using hlay)
  refine ⟨by decide, by simpa using h.1, by simpa using h.2.1, by decide⟩

/-! ## Backing storage (`CfrProduceStorageForOption`, SetupMenuCfr.c) -/

/-- The external UEFI variable store at the fixed vendor GUID, modelled
per the spec's interface description as a name-to-bytes association list
(most recent write first). -/
abbrev VarStore := List (List Nat × List Nat)

/-- Existence probe: `GetVariable` with a zero-length buffer reports
`EFI_NOT_FOUND` exactly when no variable with the name exists. -/
def storeGet : VarStore → List Nat → Option (List Nat)
  | [], _ => none
  | (k, v) :: s, n => if k = n then some v else storeGet s n

/-- Side effect of `CfrProduceStorageForOption` on the variable store:
probe for the option's name and `SetVariable` the option's default value
only when the probe returned `EFI_NOT_FOUND`; an existing variable is
left untouched. -/
def CfrProduceStorageForOption (s : VarStore) (name defVal : List Nat) :
    VarStore :=
  match storeGet s name with
  | none => (name, defVal) :: s
  | some _ => s

/-- One menu-build pass over a list of (option name, default value)
pairs, creating backing storage for each option in turn. -/
def menuPass (opts : List (List Nat × List Nat)) (s : VarStore) : VarStore :=
  opts.foldl (fun st o => CfrProduceStorageForOption st o.1 o.2) s

/-- Creating storage never loses an existing variable. -/
theorem storeGet_produce_isSome (s : VarStore) (n d m : List Nat)
    (h : (storeGet s m).isSome) :
    (storeGet (CfrProduceStorageForOption s n d) m).isSome := by
  unfold CfrProduceStorageForOption
  cases hg : storeGet s n with
  | none =>
    simp only [storeGet]
    by_cases hnm : n = m <;> simp [hnm, h]
  | some v => exact h

/-- After creating storage for `n`, a variable named `n` exists. -/
theorem storeGet_produce_self (s : VarStore) (n d : List Nat) :
    (storeGet (CfrProduceStorageForOption s n d) n).isSome := by
  unfold CfrProduceStorageForOption
  cases hg : storeGet s n with
  | none => simp [storeGet]
  | some v => simp [hg]

/-- A menu pass never loses an existing variable. -/
theorem storeGet_menuPass_isSome (opts : List (List Nat × List Nat)) :
    ∀ (s : VarStore) (m : List Nat), (storeGet s m).isSome →
      (storeGet (menuPass opts s) m).isSome := by
  induction opts with
  | nil => intro s m h; exact h
  | cons a rest ih =>
    intro s m h
    exact ih _ m (storeGet_produce_isSome s a.1 a.2 m h)

/-- After a menu pass, every processed option's variable exists. -/
theorem menuPass_creates_all (opts : List (List Nat × List Nat)) :
    ∀ (s : VarStore) (o : List Nat × List Nat), o ∈ opts →
      (storeGet (menuPass opts s) o.1).isSome := by
  induction opts with
  | nil => intro s o h; cases h
  | cons a rest ih =>
    intro s o h
    cases h with
    | head =>
      exact storeGet_menuPass_isSome rest _ a.1
        (storeGet_produce_self s a.1 a.2)
    | tail _ hmem => exact ih _ o hmem

/-- A menu pass over a store that already holds every processed option's
variable changes nothing. -/
theorem menuPass_id_of_present (opts : List (List Nat × List Nat)) :
    ∀ s : VarStore,
      (∀ o ∈ opts, (storeGet s o.1).isSome) → menuPass opts s = s := by
  induction opts with
  | nil => intro s _; rfl
  | cons a rest ih =>
    intro s h
    have ha := h a (List.mem_cons_self a rest)
    have hid : CfrProduceStorageForOption s a.1 a.2 = s := by
      unfold CfrProduceStorageForOption
      cases hg : storeGet s a.1 with
      | none => rw [hg] at ha; cases ha
      | some v => rfl
    show menuPass rest (CfrProduceStorageForOption s a.1 a.2) = s
    rw [hid]
    exact ih s (fun o hmem => h o (List.mem_cons_of_mem a hmem))

/-- C8: backing-storage creation is idempotent: an option's default is
written only when the existence probe did not find the variable; an
existing variable is left unchanged; and running a whole menu-build pass
twice leaves the store exactly as running it once. -/
theorem cfrProduceStorageForOption_idempotent :
    (∀ (s : VarStore) (n d v : List Nat),
        storeGet s n = some v → CfrProduceStorageForOption s n d = s) ∧
    (∀ (s : VarStore) (n d : List Nat),
        storeGet s n = none →
          CfrProduceStorageForOption s n d = (n, d) :: s) ∧
    (∀ (s : VarStore) (n d : List Nat),
        CfrProduceStorageForOption (CfrProduceStorageForOption s n d) n d =
          CfrProduceStorageForOption s n d) ∧
    (∀ (opts : List (List Nat × List Nat)) (s : VarStore),
        menuPass opts (menuPass opts s) = menuPass opts s) := by
  refine ⟨?_, ?_, ?_, ?_⟩
  · intro s n d v h
    unfold CfrProduceStorageForOption
    rw [h]
  · intro s n d h
    unfold CfrProduceStorageForOption
    rw [h]
  · intro s n d
    cases hg : storeGet s n with
    | some v =>
      have h1 : CfrProduceStorageForOption s n d = s := by
        unfold CfrProduceStorageForOption
        rw [hg]
      rw [h1, h1]
    | none =>
      have h1 : CfrProduceStorageForOption s n d = (n, d) :: s := by
        unfold CfrProduceStorageForOption
        rw [hg]
      have h2 : storeGet ((n, d) :: s) n = some d := by simp [storeGet]
      rw [h1]
      unfold CfrProduceStorageForOption
      rw [h2]
  · intro opts s
    exact menuPass_id_of_present opts (menuPass opts s)
      (fun o hmem => menuPass_creates_all opts s o hmem)

/-- Witness for C8 at a concrete store: an existing variable [1] ↦ [2] is
left unchanged, a missing one is written, and a concrete two-option pass
is idempotent. -/
theorem cfrProduceStorageForOption_idempotent_witness :
    storeGet [([1], [2])] [1] = some [2] ∧
    CfrProduceStorageForOption [([1], [2])] [1] [9] = [([1], [2])] ∧
    menuPass [([1], [2]), ([3], [4])]
        (menuPass [([1], [2]), ([3], [4])] []) =
      menuPass [([1], [2]), ([3], [4])] [] :=
  ⟨rfl,
   (cfrProduceStorageForOption_idempotent).1 [([1], [2])] [1] [9] [2] rfl,
   (cfrProduceStorageForOption_idempotent).2.2.2 [([1], [2]), ([3], [4])] []⟩
